import Mathlib

/-!
Verification development for the valueinvest-backend document discovery,
selection, and retrieval pipeline (`scraper.py`, `jp_scraper.py`).

The Python code is shallowly embedded:
  * pure string/date manipulation is translated function by function;
  * network calls (search engines, page fetches, PDF download, the external
    `urllib`/`urljoin` helpers and the `yfinance` name lookup, all of which
    catch their own exceptions in the source and return plain values) are
    modelled as oracle parameters, so theorems quantify over every possible
    network behaviour;
  * Python `datetime` values (always midnight-anchored here) are modelled by
    a year/month/day record compared and subtracted through a day ordinal
    (`rataDie`), which is exactly how `datetime` ordering and
    `(a - b).days` behave for such values;
  * Python's stable `list.sort(key=k)` / `list.sort(key=k, reverse=True)` is
    modelled by `List.insertionSort` with the corresponding (non-strict)
    relation, which Mathlib's `insertionSort` implements stably;
  * `list(set(xs))` (arbitrary iteration order in Python) is modelled
    deterministically by `List.eraseDups`, which keeps first occurrences;
  * log strings follow the source messages with decoration (emoji, quotes)
    removed; no theorem depends on the exact wording of a log line.
-/

namespace VIB

/-! ### Generic string helpers (Python `in`, `lower`, `upper`, `strip`) -/

/-- Is `n` a prefix of `h`?  Used to implement Python's substring test. -/
def strStartsL : List Char → List Char → Bool
  | [], _ => true
  | _ :: _, [] => false
  | n :: ns, h :: hs => n == h && strStartsL ns hs

/-- Python's `needle in hay` on lists of characters. -/
def strHasL (needle : List Char) : List Char → Bool
  | [] => needle.isEmpty
  | h :: hs => strStartsL needle (h :: hs) || strHasL needle hs

/-- Python's `needle in hay` substring test. -/
def strHas (needle hay : String) : Bool := strHasL needle.toList hay.toList

/-- Python's `str.lower()` (ASCII range, which is all the code compares). -/
def strLower (s : String) : String := String.mk (s.toList.map Char.toLower)

/-- Python's `str.upper()` (ASCII range, which is all the code compares). -/
def strUpper (s : String) : String := String.mk (s.toList.map Char.toUpper)

/-- Python's `str.endswith(suffix)`. -/
def strEnds (suffix s : String) : Bool :=
  strStartsL suffix.toList.reverse s.toList.reverse

/-- Python's `str.strip()`: drop whitespace from both ends. -/
def pyStrip (s : String) : String :=
  String.mk (((s.toList.dropWhile (fun c => c.isWhitespace)).reverse.dropWhile
    (fun c => c.isWhitespace)).reverse)

/-- Numeric value of a decimal digit character. -/
def dv (c : Char) : Nat := c.toNat - 48

/-! ### Dates: the model of the `datetime` values built by the scrapers -/

/-- A calendar date as produced by `parse_date_from_text`
(`datetime(year, month, day)` at midnight). -/
structure PDate where
  year : Nat
  month : Nat
  day : Nat
deriving DecidableEq

/-- Day ordinal of a civil date (days since 0000-03-01).  `datetime`
comparison is chronological order and `(a - b).days` is the ordinal
difference for midnight-anchored datetimes, so this is the faithful model
of both. -/
def rataDie (dt : PDate) : Nat :=
  let yr := if dt.month ≤ 2 then dt.year - 1 else dt.year
  let era := yr / 400
  let yoe := yr % 400
  let mp := if dt.month ≤ 2 then dt.month + 9 else dt.month - 3
  let doy := (153 * mp + 2) / 5 + (dt.day - 1)
  let doe := yoe * 365 + yoe / 4 + doy - yoe / 100
  era * 146097 + doe

/-- Signed day ordinal, for `timedelta.days` style subtraction. -/
def pord (dt : PDate) : Int := (rataDie dt : Int)

/-- Gregorian leap year, as used by `datetime`'s constructor validation. -/
def isLeapYear (y : Nat) : Bool := y % 4 == 0 && (y % 100 != 0 || y % 400 == 0)

/-- Days in a month, as used by `datetime`'s constructor validation. -/
def daysInMonth (y m : Nat) : Nat :=
  if m == 2 then (if isLeapYear y then 29 else 28)
  else if m == 4 || m == 6 || m == 9 || m == 11 then 30
  else 31

/-- Does `datetime(y, m, d)` construct without raising `ValueError`? -/
def validDate (y m d : Nat) : Bool :=
  1 ≤ m && m ≤ 12 && 1 ≤ d && d ≤ daysInMonth y m

/-! ### Stable sorting relations modelling Python `list.sort` -/

/-- Non-strict lexicographic order on integer pairs: the order of Python
tuple comparison `(a, b) <= (c, d)`. -/
def lexLeI (p q : Int × Int) : Prop := p.1 < q.1 ∨ (p.1 = q.1 ∧ p.2 ≤ q.2)

instance lexLeI.instDec : ∀ p q, Decidable (lexLeI p q) := fun p q => by
  unfold lexLeI
  exact inferInstance

/-- Model of `descByKey k a b` holds when `a` may come before `b` in
`sort(key=k, reverse=True)`: the key of `b` is lexicographically at most the
key of `a`. -/
def descByKey {α : Type} (k : α → Int × Int) (a b : α) : Prop := lexLeI (k b) (k a)

instance descByKey.instDecRel {α : Type} (k : α → Int × Int) :
    DecidableRel (descByKey k) := fun a b => lexLeI.instDec (k b) (k a)

instance descByKey.instTotal {α : Type} (k : α → Int × Int) :
    IsTotal α (descByKey k) := ⟨fun a b => by unfold descByKey lexLeI; omega⟩

instance descByKey.instTrans {α : Type} (k : α → Int × Int) :
    IsTrans α (descByKey k) :=
  ⟨fun a b c h1 h2 => by unfold descByKey lexLeI at h1 h2 ⊢; omega⟩

/-- Model of `ascByKey k a b` holds when `a` may come before `b` in `sort(key=k)`. -/
def ascByKey {α : Type} (k : α → Int) (a b : α) : Prop := k a ≤ k b

instance ascByKey.instDecRel {α : Type} (k : α → Int) :
    DecidableRel (ascByKey k) := fun a b => by
  unfold ascByKey
  exact inferInstance

instance ascByKey.instTotal {α : Type} (k : α → Int) :
    IsTotal α (ascByKey k) := ⟨fun a b => Int.le_total (k a) (k b)⟩

instance ascByKey.instTrans {α : Type} (k : α → Int) :
    IsTrans α (ascByKey k) := ⟨fun _ _ _ h1 h2 => le_trans h1 h2⟩

/-! ### `scraper.py` — `parse_quarter_from_string` (lines 51-74) -/

/-- Match of the pattern `20(\d{2})` anchored at the current position: a
literal "20" followed by two digits.  Returns the full four-digit year. -/
def year20At : List Char → Option Nat
  | '2' :: '0' :: c1 :: c2 :: _ =>
    if c1.isDigit && c2.isDigit then some (2000 + 10 * dv c1 + dv c2) else none
  | _ => none

/-- Leftmost match of `20(\d{2})`: try each position left to right. -/
def findYear20 : List Char → Option Nat
  | [] => none
  | c :: rest =>
    match year20At (c :: rest) with
    | some y => some y
    | none => findYear20 rest

/-- Python's `\w` word character (the scraped slugs are ASCII). -/
def isWordChar (c : Char) : Bool := c.isAlpha || c.isDigit || c == '_'

/-- Leftmost match of `\b(\d{2})\b`: exactly two digits delimited by word
boundaries.  `prev` is the character just before the current scan position. -/
def findYear2Go (prev : Option Char) : List Char → Option Nat
  | a :: b :: rest =>
    if a.isDigit && b.isDigit
        && (match prev with | none => true | some p => !(isWordChar p))
        && (match rest with | [] => true | c :: _ => !(isWordChar c)) then
      some (10 * dv a + dv b)
    else findYear2Go (some a) (b :: rest)
  | _ => none

/-- The year-extraction part of `parse_quarter_from_string`: first try
`20(\d{2})`; otherwise the first `\b(\d{2})\b` match, accepted only when its
value lies in 20..30.  Operates on the upper-cased text. -/
def extractYearUpper (cs : List Char) : Option Nat :=
  match findYear20 cs with
  | some y => some y
  | none =>
    match findYear2Go none cs with
    | some v => if 20 ≤ v && v ≤ 30 then some (2000 + v) else none
    | none => none

/-- The quarter keyword table `q_map`, in Python dict insertion order (the
loop takes the first key contained in the text). -/
def q_map : List (String × Nat) :=
  [("Q1", 1), ("1Q", 1), ("FIRST QUARTER", 1),
   ("Q2", 2), ("2Q", 2), ("SECOND QUARTER", 2),
   ("Q3", 3), ("3Q", 3), ("THIRD QUARTER", 3),
   ("Q4", 4), ("4Q", 4), ("FOURTH QUARTER", 4), ("FULL YEAR", 4), ("FY", 4)]

/-- First quarter keyword contained in the (upper-cased) text, else 0. -/
def findQuarter (cs : List Char) : Nat :=
  match q_map.find? (fun kv => strHasL kv.1.toList cs) with
  | some kv => kv.2
  | none => 0

/-- Model of `parse_quarter_from_string`: `(year, quarter)` from a text, `(0, 0)` when
the text is falsy or no year can be extracted. -/
def parse_quarter_from_string (s : String) : Nat × Nat :=
  if s = "" then (0, 0)
  else
    let up := s.toList.map Char.toUpper
    match extractYearUpper up with
    | none => (0, 0)
    | some y => (y, findQuarter up)

/-! ### `scraper.py` — candidate ranking inside `find_transcript_candidates`
(lines 230-246) -/

/-- Accumulating worker for single-character splitting. -/
def splitCharAux (c : Char) (acc : List Char) : List Char → List String
  | [] => [String.mk acc.reverse]
  | x :: rest =>
    if x == c then String.mk acc.reverse :: splitCharAux c [] rest
    else splitCharAux c (x :: acc) rest

/-- Python's `s.split(sep)` for a single-character separator (keeps empty
fragments, as Python does). -/
def splitOnChar (c : Char) (s : String) : List String := splitCharAux c [] s.toList

/-- The slug of a link: `link.split('/')[-1].replace('-', ' ')`. -/
def slugOf (link : String) : String :=
  String.mk (((splitOnChar '/' link).getLastD "").toList.map
    (fun c => if c == '-' then ' ' else c))

/-- Model of `score = score_tuple[0] * 10 + score_tuple[1]`. -/
def scoreOfPair (p : Nat × Nat) : Nat := p.1 * 10 + p.2

/-- The recency score of a link, computed from its slug. -/
def linkScore (link : String) : Nat := scoreOfPair (parse_quarter_from_string (slugOf link))

/-- The fixed source-trust priority used by `sort_key`:
`Investing.com` 2, `Seeking Alpha` 1, everything else 0. -/
def sourcePrio (source : String) : Nat :=
  if strHas "Investing.com" source then 2
  else if strHas "Seeking Alpha" source then 1
  else 0

/-- The `sort_key` of a ranked tuple `(score, link, source)`. -/
def rankKey (t : Nat × String × String) : Int × Int :=
  ((t.1 : Int), (sourcePrio t.2.2 : Int))

/-- The Candidate Ranker: score each `(link, source)` pair by its slug and
sort descending by `(score, prio)` (`ranked_candidates.sort(key=sort_key,
reverse=True)`, a stable sort). -/
def rank_candidates (unique : List (String × String)) : List (Nat × String × String) :=
  List.insertionSort (descByKey rankKey)
    (unique.map (fun ls => (linkScore ls.1, ls.1, ls.2)))

/-- The re-parsing map building `final_list`: note the source re-parses the
whole link, not the slug. -/
def final_list_of (ranked : List (Nat × String × String)) :
    List ((Nat × Nat) × String × String) :=
  ranked.map (fun t => (parse_quarter_from_string t.2.1, t.2.1, t.2.2))

/-! ### `jp_scraper.py` — document types and candidates -/

/-- The document-type taxonomy of `jp_scraper.py`. -/
inductive DocType
  | html_transcript
  | pdf_transcript
  | pdf_presentation
  | pdf_tanshin
  | other
deriving DecidableEq

/-- The type strings stored in `item['type']`. -/
def typeStr : DocType → String
  | .html_transcript => "HTML_TRANSCRIPT"
  | .pdf_transcript => "PDF_TRANSCRIPT"
  | .pdf_presentation => "PDF_PRESENTATION"
  | .pdf_tanshin => "PDF_TANSHIN"
  | .other => "OTHER"

/-- The fixed `TYPE_PRIORITY` table (jp_scraper.py lines 26-32). -/
def TYPE_PRIORITY : DocType → Int
  | .html_transcript => 1
  | .pdf_transcript => 2
  | .pdf_presentation => 3
  | .pdf_tanshin => 4
  | .other => 99

/-- A classified, dated document candidate as built by
`analyze_company_page`. -/
structure Item where
  itype : DocType
  date : PDate
  url : String
  priority : Int
  title : String
deriving DecidableEq

/-! ### `jp_scraper.py` — the Selection Engine
(`scrape_japanese_transcript` lines 315-348) -/

/-- Sort key of `items.sort(key=lambda x: (x['date'], -x['priority']),
reverse=True)`. -/
def datePrioKey (i : Item) : Int × Int := (pord i.date, -i.priority)

/-- Model of `items` after the first in-place sort: date descending, priority
ascending on equal dates (stable). -/
def sortItemsDesc (items : List Item) : List Item :=
  List.insertionSort (descByKey datePrioKey) items

/-- Model of `window_start = latest_date - timedelta(days=10)` as a day ordinal. -/
def window_start (latest : PDate) : Int := pord latest - 10

/-- Model of `recent_candidates = [i for i in items if i['date'] >= window_start]`,
where `items` is the already-sorted list and `latest_date = items[0]['date']`.
Empty input yields the empty list (the source returns earlier in that case).
-/
def recent_candidates (items : List Item) : List Item :=
  match sortItemsDesc items with
  | [] => []
  | top :: rest =>
    (top :: rest).filter (fun i => decide (window_start top.date ≤ pord i.date))

/-- Model of `recent_candidates.sort(key=lambda x: x['priority'])` (stable). -/
def recent_sorted (items : List Item) : List Item :=
  List.insertionSort (ascByKey (fun i : Item => i.priority)) (recent_candidates items)

/-- Membership test of `i['type'] in ['HTML_TRANSCRIPT', 'PDF_TRANSCRIPT']`. -/
def transcript_types (i : Item) : Bool :=
  i.itype == .html_transcript || i.itype == .pdf_transcript

/-- Model of `transcripts = [i for i in items if ...]; transcripts.sort(key=date,
reverse=True)` — filtered from the date-sorted `items` list. -/
def transcripts_sorted (items : List Item) : List Item :=
  List.insertionSort (descByKey (fun i : Item => (pord i.date, 0)))
    ((sortItemsDesc items).filter transcript_types)

/-- The secondary/context scan: walk `transcripts` in date-descending order
and take the first one whose age relative to the primary lies strictly
between 60 and 250 days (the `for tx in transcripts ... break` loop). -/
def select_secondary (items : List Item) (w : Item) : Option Item :=
  (transcripts_sorted items).find?
    (fun tx => decide (60 < pord w.date - pord tx.date ∧ pord w.date - pord tx.date < 250))

/-- The Selection Engine: primary = `recent_candidates[0]` after the priority
sort, secondary from the transcript scan.  `none` models the `IndexError`
Python would raise if `recent_candidates` were empty (proved unreachable for
nonempty input). -/
def select_docs (items : List Item) : Option (Item × Option Item) :=
  match recent_sorted items with
  | [] => none
  | w :: _ => some (w, select_secondary items w)

/-- Model of `docs_to_fetch`: the primary followed by the secondary when present. -/
def docs_to_fetch (p : Item × Option Item) : List Item :=
  p.1 :: p.2.toList

/-! ### Concrete inputs used by scenario theorems, witnesses and
counterexamples for the Selection Engine claims -/

def c4w_a : Item := ⟨.html_transcript, ⟨2024, 5, 20⟩, "wa", 1, "a"⟩

def c4w_b : Item := ⟨.pdf_tanshin, ⟨2024, 5, 15⟩, "wb", 4, "b"⟩

def c5w : Item := ⟨.pdf_presentation, ⟨2023, 2, 28⟩, "wc", 3, "c"⟩

def c2_tanshin : Item :=
  ⟨.pdf_tanshin, ⟨2025, 11, 10⟩, "https://finance.logmi.jp/t.pdf", 4, "tanshin"⟩

def c2_html : Item :=
  ⟨.html_transcript, ⟨2025, 11, 8⟩, "https://finance.logmi.jp/articles/h", 1, "call"⟩

def c2_pdft : Item :=
  ⟨.pdf_transcript, ⟨2025, 8, 1⟩, "https://finance.logmi.jp/p.pdf", 2, "prior"⟩

/-- Claim C1 as stated: a secondary document is returned only when the most
recent transcript-type candidate (the head of the date-descending transcript
list) is itself strictly between 60 and 250 days older than the primary. -/
def c1_claim : Prop :=
  ∀ (items : List Item) (w s : Item),
    select_docs items = some (w, some s) →
      ∃ t0, (transcripts_sorted items).head? = some t0 ∧
        60 < pord w.date - pord t0.date ∧ pord w.date - pord t0.date < 250

def cxA : Item := ⟨.html_transcript, ⟨2025, 11, 10⟩, "v1", 1, "s1"⟩

def cxB : Item := ⟨.pdf_transcript, ⟨2025, 8, 1⟩, "v2", 2, "s2"⟩

/-! ### Claim C3 — the score of a candidate without an extractable year -/

/-- Claim C3 as stated (its distinctive part): a candidate string from which
no year can be extracted is assigned a *nonzero* configured baseline score
(the claim says "rather than zero").  The remainder of the sentence (sorts
last, not removed) is covered by the amended theorem. -/
def c3_claim : Prop :=
  ∀ s : String, extractYearUpper (s.toList.map Char.toUpper) = none →
    scoreOfPair (parse_quarter_from_string s) ≠ 0

/-! ### `jp_scraper.py` — the Pagination Stitcher
(`stitch_html_transcript` lines 162-205) -/

/-- A block-level element of the located main container: its text and its
class list, which is all the filtering inspects. -/
structure SEl where
  text : String
  classes : List String
deriving DecidableEq

/-- One fetched page, as seen by the loop body: the elements of the located
main container (`none` when no container was found — a falsy `main`) and
whether a "next page" affordance was found. -/
structure StitchPage where
  mainElems : Option (List SEl)
  hasNext : Bool
deriving DecidableEq

/-- Consume a maximal run of digits. -/
def dropDigitsGreedy : List Char → List Char
  | c :: rest => if c.isDigit then dropDigitsGreedy rest else c :: rest
  | [] => []

/-- Consume one or more digits (`\d+`), or fail. -/
def dropDigits1 : List Char → Option (List Char)
  | c :: rest => if c.isDigit then some (dropDigitsGreedy rest) else none
  | [] => none

/-- Consume at most one whitespace character (`\s?`). -/
def skipOneSpace : List Char → List Char
  | c :: t => if c.isWhitespace then t else c :: t
  | [] => []

/-- Model of `re.match(r'^\d+\s?/\s?\d+', txt)`: a page-counter fragment such as
`3 / 12` at the start of the text. -/
def matchPageNum (cs : List Char) : Bool :=
  match dropDigits1 cs with
  | none => false
  | some r1 =>
    match skipOneSpace r1 with
    | '/' :: r3 => (dropDigits1 (skipOneSpace r3)).isSome
    | _ => false

/-- The class names filtered out of the main container. -/
def stitchNavClasses : List String := ["paging", "sns-share", "breadcrumb"]

/-- The `valid` list: stripped element texts longer than one character that
are not page counters and carry no navigation/share class. -/
def stitch_valid (els : List SEl) : List String :=
  els.filterMap (fun el =>
    let txt := pyStrip el.text
    if txt.length > 1 && !matchPageNum txt.toList
        && !(stitchNavClasses.any (fun c => el.classes.contains c)) then some txt
    else none)

/-- Drop elements equal to their immediate predecessor (the `deduped`
loop). -/
def dedupAdjGo (prev : String) : List String → List String
  | [] => []
  | x :: rest => if x == prev then dedupAdjGo prev rest else x :: dedupAdjGo x rest

/-- Adjacent deduplication of the `valid` list. -/
def dedupAdj : List String → List String
  | [] => []
  | x :: rest => x :: dedupAdjGo x rest

/-- Model of `target = f"{url}?page={page}" if page > 1 else url`. -/
def stitchTarget (url : String) (page : Nat) : String :=
  if page > 1 then url ++ "?page=" ++ toString page else url

/-- Result of the stitching loop: collected page chunks, emitted log lines
and the number of loop iterations executed. -/
structure StitchOut where
  chunks : List String
  logs : List String
  iters : Nat
deriving DecidableEq

/-- One iteration of the `while page < 15` loop body, over the fetched page
`res` (`none` models a failed `get_soup`, which logs and breaks): extract
and deduplicate the main container's text, break on an empty chunk, a
missing container, or a missing "next" affordance, and otherwise continue
with `next`. -/
def stitchIter (res : Option StitchPage) (errLog : String)
    (next : Unit → StitchOut) : StitchOut :=
  match res with
  | none => ⟨[], [errLog], 1⟩
  | some pg =>
    match pg.mainElems with
    | none => ⟨[], [], 1⟩
    | some els =>
      let chunk := String.intercalate "\n\n" (dedupAdj (stitch_valid els))
      if chunk = "" then ⟨[], [], 1⟩
      else if pg.hasNext then
        let rest := next ()
        ⟨chunk :: rest.chunks, rest.logs, rest.iters + 1⟩
      else ⟨[chunk], [], 1⟩

/-- The `while page < 15` loop of `stitch_html_transcript`. -/
def stitchGo (fetch : String → Option StitchPage) (url : String) (page : Nat) : StitchOut :=
  if _h : page < 15 then
    stitchIter (fetch (stitchTarget url page))
      (" [!] Error fetching " ++ stitchTarget url page)
      (fun _ => stitchGo fetch url (page + 1))
  else ⟨[], [], 0⟩
termination_by 15 - page
decreasing_by omega

/-- The Pagination Stitcher: run the loop from page 1 and join the page
chunks with blank lines.  Returns `(stitched text, log lines, iterations)`.
-/
def stitch_html_transcript (fetch : String → Option StitchPage) (url : String) :
    String × List String × Nat :=
  let out := stitchGo fetch url 1
  (String.intercalate "\n\n" out.chunks, ("Stitching HTML: " ++ url) :: out.logs, out.iters)

/-- A fetch oracle on which every page yields content and a "next page"
affordance — the worst case for termination. -/
def c6_fetch : String → Option StitchPage :=
  fun _ => some ⟨some [⟨"This is body text content of the page", []⟩], true⟩

/-! ### `scraper.py` — the Cascading Fetcher (`get_transcript_data`
lines 394-408) -/

/-- The provenance metadata dictionary returned by the page parsers on
success. -/
structure SuccessMeta where
  source : String
  url : String
  symbol_used : String
  title : String
  date : String
deriving DecidableEq

/-- The metadata slot of `get_transcript_data`'s result: success provenance
or an error dictionary. -/
inductive SMeta
  | ok (m : SuccessMeta)
  | err (e : String)
deriving DecidableEq

/-- The `for score, url, source in candidates[:3]` loop: fetch each
candidate in order and return on the first truthy text (`fetch_page` never
raises in the source — every strategy inside it catches its own errors — so
it is modelled as a total oracle returning `none` for a falsy text). -/
def try_candidates (fp : String → String → Option (String × SuccessMeta)) :
    List ((Nat × Nat) × String × String) → Option String × SMeta
  | [] => (none, .err "Candidates found but failed to parse")
  | c :: rest =>
    match fp c.2.1 c.2.2 with
    | some tm => if tm.1 = "" then try_candidates fp rest else (some tm.1, .ok tm.2)
    | none => try_candidates fp rest

/-- The candidates on which the loop actually calls `fetch_page`. -/
def attempted_candidates (fp : String → String → Option (String × SuccessMeta)) :
    List ((Nat × Nat) × String × String) → List ((Nat × Nat) × String × String)
  | [] => []
  | c :: rest =>
    match fp c.2.1 c.2.2 with
    | some tm => if tm.1 = "" then c :: attempted_candidates fp rest else [c]
    | none => c :: attempted_candidates fp rest

/-- The validated outcome of fetching one candidate: its text and metadata
when the fetch yielded truthy text, `none` otherwise. -/
def validated_of (fp : String → String → Option (String × SuccessMeta))
    (c : (Nat × Nat) × String × String) : Option (String × SuccessMeta) :=
  match fp c.2.1 c.2.2 with
  | some tm => if tm.1 = "" then none else some tm
  | none => none

/-- The first candidate (in list order) whose fetch yields validated
(truthy) text, with that text and metadata. -/
def first_validated (fp : String → String → Option (String × SuccessMeta))
    (l : List ((Nat × Nat) × String × String)) : Option (String × SuccessMeta) :=
  l.findSome? (validated_of fp)

/-! ### `scraper.py` — search orchestration (`find_transcript_candidates`
lines 183-255) and the top-level `get_transcript_data` -/

/-- The junk markers filtered out of raw search result links. -/
def junk_markers : List String :=
  ["search.yahoo", "google.com", "bing.com", "ask.com", "ad_url"]

/-- The per-link classification of `extract_valid_links`: junk filter, then
the allow-list of transcript-hosting sites with their source labels. -/
def classify_link (link : String) : Option String :=
  let ll := strLower link
  if junk_markers.any (fun j => strHas j ll) then none
  else if strHas "seekingalpha.com/article" ll &&
      (strHas "transcript" ll || strHas "earnings-call" ll) then some "Seeking Alpha"
  else if strHas "investing.com" ll && strHas "transcript" ll then some "Investing.com"
  else if strHas "fool.com" ll && strHas "transcript" ll then some "Motley Fool"
  else if strHas "finance.yahoo.com" ll && strHas "transcript" ll then some "Yahoo Finance"
  else if strHas "marketscreener.com" ll && strHas "transcript" ll then some "MarketScreener"
  else none

/-- Model of `extract_valid_links`: deduplicate the raw links, classify each, and
deduplicate the classified pairs (`list(set(...))` is modelled by
`eraseDups`, which keeps first occurrences). -/
def extract_valid_links (raw : List String) : List (String × String) :=
  ((raw.eraseDups).filterMap (fun l => (classify_link l).map (fun s => (l, s)))).eraseDups

/-- The network boundary of the open-web pipeline.  `companyName` models
`get_company_name` (which catches internally and always returns a string),
`yahoo`/`ask` model the two search backends (which catch internally and
return link lists), and `fetchPage` models `fetch_page` (url, source,
ticker; it catches internally and returns either truthy text with provenance
metadata or nothing — its failure-side error dictionary never escapes the
loop in the source). -/
structure SearchOracles where
  companyName : String → String
  yahoo : String → List String
  ask : String → List String
  fetchPage : String → String → String → Option (String × SuccessMeta)

/-- One iteration of the query loop: try Yahoo, fall back to Ask.com when
Yahoo returned nothing (which the source logs), and extract valid links. -/
def run_query (o : SearchOracles) (q : String) : List (String × String) × List String :=
  let raw := o.yahoo q
  if raw.isEmpty then
    (extract_valid_links (o.ask q),
     ["Yahoo returned 0 results. Trying Backup (Ask.com)..."])
  else (extract_valid_links raw, [])

/-- Model of `len(set([c[0] for c in candidates]))` — the early-break count. -/
def distinctLinkCount (cands : List (String × String)) : Nat :=
  ((cands.map Prod.fst).eraseDups).length

/-- The tail of `find_transcript_candidates`: deduplicate the accumulated
candidates, log and return empty when none survive, otherwise rank and
build `final_list`. -/
def finalize_candidates (symbol : String) (cands : List (String × String))
    (logs : List String) : List ((Nat × Nat) × String × String) × List String :=
  let unique := cands.eraseDups
  if unique.isEmpty then
    ([], logs ++ ["No candidates found for " ++ symbol ++ ". Sources checked: Yahoo, Ask.com"])
  else (final_list_of (rank_candidates unique), logs)

/-- The search-term priority of `find_transcript_candidates`: company name
when truthy and distinct from the symbol, else the suffix-stripped ticker
when distinct, else the symbol. -/
def primary_term_of (o : SearchOracles) (symbol : String) : String :=
  let company_name := o.companyName symbol
  let clean_ticker :=
    if strHas "." symbol then (splitOnChar '.' symbol).headD symbol else symbol
  if company_name != "" && company_name != symbol then company_name
  else if clean_ticker != symbol then clean_ticker
  else symbol

/-- Model of `find_transcript_candidates`: run the two queries in order, breaking
after the first when at least three distinct links were already found, then
deduplicate, rank and format.  Returns the candidate list together with the
log lines emitted to the logger side channel. -/
def find_transcript_candidates (o : SearchOracles) (symbol : String) :
    List ((Nat × Nat) × String × String) × List String :=
  let primary_term := primary_term_of o symbol
  let q1 := primary_term ++ " earnings call transcript 2024 2025"
  let q2 := "site:seekingalpha.com " ++ primary_term ++ " earnings transcript"
  let log0 := "Searching for " ++ symbol ++ " using term: " ++ primary_term
  let r1 := run_query o q1
  if 3 ≤ distinctLinkCount r1.1 then
    finalize_candidates symbol r1.1 (log0 :: r1.2)
  else
    let r2 := run_query o q2
    finalize_candidates symbol (r1.1 ++ r2.1) (log0 :: (r1.2 ++ r2.2))

/-- Model of `get_transcript_data` together with the log lines its run emitted to the
logger side channel (the Python function itself returns only the first
component; the logs go to `logging`, not to the caller). -/
def get_transcript_data_run (o : SearchOracles) (ticker : String) :
    (Option String × SMeta) × List String :=
  let fc := find_transcript_candidates o ticker
  (if fc.1.isEmpty then (none, .err "No candidates found")
   else try_candidates (fun u s => o.fetchPage u s ticker) (fc.1.take 3),
   fc.2)

/-- Model of `get_transcript_data`: the value actually returned to the caller. -/
def get_transcript_data (o : SearchOracles) (ticker : String) : Option String × SMeta :=
  (get_transcript_data_run o ticker).1

/-- Claim C9's log-trail clause for `get_transcript_data`, formalized: the
value returned to the caller determines (carries) the accumulated log trail
of the run. -/
def c9_claim_scraper_logs_in_return : Prop :=
  ∃ f : (Option String × SMeta) → List String,
    ∀ (o : SearchOracles) (ticker : String),
      f (get_transcript_data o ticker) = (get_transcript_data_run o ticker).2

/-- First counterexample oracle: Yahoo answers both queries with one junk
link, so the Ask.com backup is never tried and no backup log line is
emitted; no candidates survive. -/
def c9_oracle1 : SearchOracles :=
  ⟨fun s => s, fun _ => ["zzz"], fun _ => [], fun _ _ _ => none⟩

/-- Second counterexample oracle: Yahoo answers both queries with nothing,
so the Ask.com backup is tried (and logged) twice; no candidates survive. -/
def c9_oracle2 : SearchOracles :=
  ⟨fun s => s, fun _ => [], fun _ => [], fun _ _ _ => none⟩

/-! ### `jp_scraper.py` — `parse_date_from_text` (lines 54-62) -/

/-- First separator class of the date pattern: `[./年\-]`. -/
def dateSep1 (c : Char) : Bool := c == '.' || c == '/' || c == '年' || c == '-'

/-- Second separator class of the date pattern: `[./月\-]`. -/
def dateSep2 (c : Char) : Bool := c == '.' || c == '/' || c == '月' || c == '-'

/-- The trailing `(\d{1,2})` day group: one or two digits, greedily. -/
def matchDayPart : List Char → Option Nat
  | a :: b :: _ =>
    if a.isDigit then some (if b.isDigit then 10 * dv a + dv b else dv a) else none
  | [a] => if a.isDigit then some (dv a) else none
  | [] => none

/-- The `(\d{1,2})[./月\-](\d{1,2})` month/separator/day tail, with the
regex's greedy-then-backtrack choice of a two- or one-digit month. -/
def matchMDPart : List Char → Option (Nat × Nat)
  | a :: b :: c :: rest =>
    if a.isDigit && b.isDigit && dateSep2 c then
      (matchDayPart rest).map (fun d => (10 * dv a + dv b, d))
    else if a.isDigit && dateSep2 b then
      (matchDayPart (c :: rest)).map (fun d => (dv a, d))
    else none
  | _ => none

/-- Match of `(20\d{2})[./年\-](\d{1,2})[./月\-](\d{1,2})` anchored at the
current position. -/
def dateAt : List Char → Option (Nat × Nat × Nat)
  | '2' :: '0' :: c1 :: c2 :: s :: rest =>
    if c1.isDigit && c2.isDigit && dateSep1 s then
      (matchMDPart rest).map (fun md => (2000 + 10 * dv c1 + dv c2, md.1, md.2))
    else none
  | _ => none

/-- Leftmost match of the date pattern: try each position left to right. -/
def findDateMatch : List Char → Option (Nat × Nat × Nat)
  | [] => none
  | c :: rest =>
    match dateAt (c :: rest) with
    | some r => some r
    | none => findDateMatch rest

/-- Model of `parse_date_from_text`: `None` on falsy text; otherwise the first regex
match, accepted only when `datetime(y, m, d)` constructs (the
`try/except`). -/
def parse_date_from_text (s : String) : Option PDate :=
  if s = "" then none
  else
    match findDateMatch s.toList with
    | none => none
    | some ymd => if validDate ymd.1 ymd.2.1 ymd.2.2 then some ⟨ymd.1, ymd.2.1, ymd.2.2⟩ else none

/-! ### `jp_scraper.py` — `analyze_company_page` (lines 207-266) -/

/-- One anchor of the company listing page, as the classifier sees it:
its href, its stripped link text, the text of its previous sibling when one
exists, and the aggregated texts of its ancestors from the nearest outward
(the date cascade walks at most three of them). -/
structure ALink where
  href : String
  text : String
  prevSiblingText : Option String
  ancestorTexts : List String
deriving DecidableEq

/-- The classification branch of the loop: HTML article paths are
transcripts; binary-document paths need a keyword match on the link text and
are otherwise discarded (`continue`); everything else is discarded.  The
initial `item_type = "OTHER"` assignment in the source is dead: no `OTHER`
item is ever appended. -/
def classify_jp_link (l : ALink) : Option (DocType × Int) :=
  if strHas "/articles/" l.href then
    some (.html_transcript, TYPE_PRIORITY .html_transcript)
  else if strHas "active_storage" l.href || strEnds ".pdf" (strLower l.href) then
    if strHas "書き起こし" l.text then some (.pdf_transcript, TYPE_PRIORITY .pdf_transcript)
    else if strHas "説明会資料" l.text || strHas "説明資料" l.text then
      some (.pdf_presentation, TYPE_PRIORITY .pdf_presentation)
    else if strHas "短信" l.text || strHas "決算" l.text then
      some (.pdf_tanshin, TYPE_PRIORITY .pdf_tanshin)
    else none
  else none

/-- First parseable date among a list of texts. -/
def firstDateIn : List String → Option PDate
  | [] => none
  | t :: rest =>
    match parse_date_from_text t with
    | some d => some d
    | none => firstDateIn rest

/-- The date-inference cascade: link text, then previous sibling text, then
up to three ancestor texts. -/
def date_cascade (l : ALink) : Option PDate :=
  match parse_date_from_text l.text with
  | some d => some d
  | none =>
    match l.prevSiblingText.bind parse_date_from_text with
    | some d => some d
    | none => firstDateIn (l.ancestorTexts.take 3)

/-- The classification loop with its `seen_urls` set (`join` models the
external `urljoin` against the site base).  A URL already seen is skipped;
unclassifiable or undated links are dropped; accepted links are appended
with their resolved date, table priority and truncated title. -/
def analyze_go (join : String → String) (seen : List String) : List ALink → List Item
  | [] => []
  | l :: ls =>
    let fu := join l.href
    if seen.contains fu then analyze_go join seen ls
    else
      match classify_jp_link l with
      | none => analyze_go join seen ls
      | some tp =>
        match date_cascade l with
        | none => analyze_go join seen ls
        | some dt =>
          ⟨tp.1, dt, fu, tp.2, String.mk (l.text.toList.take 50)⟩ ::
            analyze_go join (fu :: seen) ls

/-- Model of `analyze_company_page`: run the loop with an empty `seen_urls`. -/
def analyze_company_page (join : String → String) (links : List ALink) : List Item :=
  analyze_go join [] links

/-! ### `jp_scraper.py` — `scrape_japanese_transcript` (lines 268-380) -/

/-- Zero-pad to two digits, as `strftime('%m')`/`%d` do. -/
def pad2 (n : Nat) : String := if n < 10 then "0" ++ toString n else toString n

/-- Model of `strftime('%Y-%m-%d')` for the 20xx dates the pipeline builds. -/
def fmtDate (d : PDate) : String :=
  toString d.year ++ "-" ++ pad2 d.month ++ "-" ++ pad2 d.day

/-- Model of `'='*40`. -/
def eqBar : String := "========================================"

/-- Model of `format_doc_header` (lines 64-74). -/
def format_doc_header (i : Item) : String :=
  let t := typeStr i.itype
  let label :=
    if strHas "TRANSCRIPT" t then "EARNINGS CALL TRANSCRIPT"
    else if strHas "PRESENTATION" t then "PRESENTATION SLIDES"
    else if strHas "TANSHIN" t then "FINANCIAL RESULTS (TANSHIN)"
    else "DOCUMENT"
  "\n\n" ++ eqBar ++ "\n=== " ++ label ++ " ===\nDATE: " ++ fmtDate i.date ++
    "\nTYPE: " ++ t ++ "\n" ++ eqBar ++ "\n"

/-- The network boundary of the Japanese pipeline.  `searchHrefs` models the
anchors of `get_soup(search_url)` (`none` = fetch failed); `ruResolve`
models the `urllib.parse` extraction of the `RU=` redirect target (wrapped
in `try/except` in the source); `companyLinks` models `get_soup` on the
company page as the classifier's anchor view; `stitchFetch` and `pdfText`
model the per-document fetches (`download_and_extract_pdf` catches all its
errors and returns a string); `joinUrl` models `urljoin` against the site
base. -/
structure JpOracles where
  searchHrefs : Option (List String)
  ruResolve : String → Option String
  companyLinks : String → Option (List ALink)
  stitchFetch : String → Option StitchPage
  pdfText : String → String
  joinUrl : String → String

/-- The per-document fetch branch of the final loop. -/
def jp_fetch_doc (o : JpOracles) (doc : Item) : String × List String :=
  if doc.itype == DocType.html_transcript then
    let out := stitch_html_transcript o.stitchFetch doc.url
    (out.1, out.2.1)
  else
    (o.pdfText doc.url, ["Downloading PDF (" ++ typeStr doc.itype ++ ")..."])

/-- One iteration of the `for doc in docs_to_fetch` loop: fetch, validate
(`doc_text` truthy and more than 50 stripped characters), and append either
the document text or the warning block under the formatted header. -/
def jp_doc_block (o : JpOracles) (doc : Item) : String × List String :=
  let fd := jp_fetch_doc o doc
  let header := format_doc_header doc
  if fd.1 != "" && (pyStrip fd.1).length > 50 then (header ++ fd.1, fd.2)
  else
    (header ++ "\n[WARNING: No text could be extracted from this document.]\n" ++
       "Please view original: " ++ doc.url ++ "\n",
     fd.2 ++ ["Warning: " ++ typeStr doc.itype ++ " returned empty text even after OCR attempts."])

/-- The company-page half of `scrape_japanese_transcript`: analyze, select,
fetch the selected documents, and return the concatenated output (falsy
output becomes `None`).  The `select_docs = none` branch models the
`IndexError` the outer `try/except` would turn into a `Global Scraper
Error` log plus `(None, logs)`. -/
def jp_company (o : JpOracles) (company_url : String) : Option String × List String :=
  match o.companyLinks company_url with
  | none =>
    (none, ["Found Company URL: " ++ company_url, " [!] Error fetching " ++ company_url])
  | some links =>
    let items := analyze_company_page o.joinUrl links
    if items.isEmpty then
      (none, ["Found Company URL: " ++ company_url, "No items found on company page."])
    else
      match select_docs items with
      | none =>
        (none, ["Found Company URL: " ++ company_url,
                "Global Scraper Error: list index out of range"])
      | some ws =>
        let blocks := (docs_to_fetch ws).map (jp_doc_block o)
        let final_output := String.join (blocks.map Prod.fst)
        let selLogs :=
          ("Primary: " ++ typeStr ws.1.itype ++ " (" ++ fmtDate ws.1.date ++ ")") ::
          (match ws.2 with
           | some s =>
             ["Context: " ++ typeStr s.itype ++ " (Historical from " ++
                toString (pord ws.1.date - pord s.date) ++ " days ago)"]
           | none => [])
        (if final_output = "" then none else some final_output,
         ("Found Company URL: " ++ company_url) :: (selLogs ++ (blocks.map Prod.snd).flatten))

/-- The body of `scrape_japanese_transcript` after the search fetch: find a
company link (resolving a `RU=` redirect through the external parser), fall
back to a direct article link (returning its stitched text, possibly the
empty string, as a non-`None` result), or give up. -/
def jp_body (o : JpOracles) : Option String × List String :=
  match o.searchHrefs with
  | none => (none, [" [!] Error fetching search page"])
  | some hrefs =>
    match hrefs.find? (fun h => strHas "finance.logmi.jp/companies/" h) with
    | some cu0 =>
      let company_url := if strHas "RU=" cu0 then (o.ruResolve cu0).getD cu0 else cu0
      jp_company o company_url
    | none =>
      match hrefs.find? (fun h => strHas "finance.logmi.jp/articles/" h) with
      | some href =>
        let out := stitch_html_transcript o.stitchFetch href
        (some out.1, ("Found Direct Article URL: " ++ href) :: out.2.1)
      | none => (none, ["Company URL not found."])

/-- Model of `scrape_japanese_transcript`: the full entry point.  Always returns a
pair `(text or None, accumulated log list)`; the log list always starts
with the two opening log lines. -/
def scrape_japanese_transcript (o : JpOracles) (ticker : String) :
    Option String × List String :=
  let clean_ticker := pyStrip (String.replace ticker ".T" "")
  let search_url := "https://search.yahoo.co.jp/search?p=" ++ clean_ticker ++ " ログミー"
  ((jp_body o).1,
   ("Starting scrape for " ++ ticker) :: ("Searching: " ++ search_url) :: (jp_body o).2)

/-! ### Concrete inputs for the remaining witnesses -/

def demoJoin : String → String := fun s => "https://finance.logmi.jp" ++ s

def demoLink1 : ALink := ⟨"/articles/123", "2025.01.15 Q3", none, []⟩

def demoLink2 : ALink := ⟨"/doc.pdf", "決算短信 2025/02/03", none, []⟩

def demoLink3 : ALink := ⟨"/somewhere", "nothing here", none, []⟩

def demoLinks : List ALink := [demoLink1, demoLink2, demoLink3, demoLink1]

def c8_cand1 : (Nat × Nat) × String × String := ((2025, 1), "u1", "Seeking Alpha")

def c8_cand2 : (Nat × Nat) × String × String := ((2024, 4), "u2", "Investing.com")

def c8_cand3 : (Nat × Nat) × String × String := ((2024, 3), "u3", "Motley Fool")

def c8_cand4 : (Nat × Nat) × String × String := ((2024, 2), "u4", "Motley Fool")

def c8_meta : SuccessMeta := ⟨"Investing.com", "u2", "T", "title", "Jan 1, 2025"⟩

/-- A fetch oracle on which the first candidate is rejected and the second
succeeds. -/
def c8_fp : String → String → Option (String × SuccessMeta) :=
  fun u _ => if u = "u2" then some ("validated text", c8_meta) else none

/-! ### Selection Engine lemmas -/

/-- The head of the date-descending sort carries the maximum date. -/
theorem sortItemsDesc_head_max (items : List Item) (top : Item) (rest : List Item)
    (hs : sortItemsDesc items = top :: rest) :
    ∀ j ∈ items, pord j.date ≤ pord top.date := by
  intro j hj
  have hmem : j ∈ top :: rest := by
    rw [← hs]
    exact (List.mem_insertionSort (descByKey datePrioKey)).mpr hj
  have hsorted : (top :: rest).Sorted (descByKey datePrioKey) := by
    rw [← hs]
    exact List.sorted_insertionSort (descByKey datePrioKey) items
  rcases List.mem_cons.mp hmem with h | h
  · rw [h]
  · have hrel := (List.sorted_cons.mp hsorted).1 j h
    simp only [descByKey, lexLeI, datePrioKey] at hrel
    omega

/-- The eligible set always contains the head of the sorted candidate
list, so it is nonempty whenever the input is. -/
theorem recent_sorted_ne_nil (items : List Item) (h : items ≠ []) :
    recent_sorted items ≠ [] := by
  have hlen : (sortItemsDesc items).length = items.length :=
    List.length_insertionSort (descByKey datePrioKey) items
  cases hs : sortItemsDesc items with
  | nil =>
    rw [hs] at hlen
    cases items with
    | nil => exact absurd rfl h
    | cons a l => simp at hlen
  | cons top rest =>
    have htop : top ∈ recent_candidates items := by
      unfold recent_candidates
      rw [hs]
      refine List.mem_filter.mpr ⟨List.mem_cons_self _ _, ?_⟩
      apply decide_eq_true
      unfold window_start
      omega
    intro hnil
    have hmem : top ∈ recent_sorted items := by
      unfold recent_sorted
      exact (List.mem_insertionSort (ascByKey (fun i : Item => i.priority))).mpr htop
    rw [hnil] at hmem
    exact absurd hmem (List.not_mem_nil _)

/-- Membership in the sorted transcript list is membership in the input list
with a transcript type. -/
theorem mem_transcripts_sorted (items : List Item) (t : Item) :
    t ∈ transcripts_sorted items ↔ t ∈ items ∧ transcript_types t = true := by
  unfold transcripts_sorted sortItemsDesc
  rw [List.mem_insertionSort (descByKey (fun i : Item => (pord i.date, 0)))]
  rw [List.mem_filter]
  rw [List.mem_insertionSort (descByKey datePrioKey)]

/-- Model of `find?` on a date-descending sorted list returns an element of maximal
date among those satisfying the predicate. -/
theorem find_max_date (p : Item → Bool) :
    ∀ (l : List Item), l.Pairwise (descByKey (fun i : Item => (pord i.date, 0))) →
      ∀ s, l.find? p = some s → ∀ t ∈ l, p t = true → pord t.date ≤ pord s.date := by
  intro l
  induction l with
  | nil => intro _ s hfind; cases hfind
  | cons a l ih =>
    intro hpw s hfind t ht hpt
    have hhead := (List.pairwise_cons.mp hpw).1
    have htail := (List.pairwise_cons.mp hpw).2
    by_cases hpa : p a = true
    · rw [List.find?_cons_of_pos _ hpa] at hfind
      have hs : s = a := by
        injection hfind with h
        exact h.symm
      rcases List.mem_cons.mp ht with h | h
      · rw [h, hs]
      · have hrel := hhead t h
        simp only [descByKey, lexLeI] at hrel
        rw [hs]
        omega
    · rw [List.find?_cons_of_neg _ hpa] at hfind
      rcases List.mem_cons.mp ht with h | h
      · rw [h] at hpt
        exact absurd hpt hpa
      · exact ih htail s hfind t h hpt

/-! ### Claim C4 — eligible set lies inside the selection window -/

/-- Claim C4: for every set of classified, dated candidates, the eligible
set used for primary selection contains no document whose date is earlier
than `referenceDate - windowDays`, where `referenceDate` is the maximum
publication date over all candidates and `windowDays` is 10.  (Quantifying
over every `j ∈ items` covers the maximum.) -/
theorem eligible_set_within_window (items : List Item) (i : Item)
    (hi : i ∈ recent_candidates items) (j : Item) (hj : j ∈ items) :
    pord j.date - 10 ≤ pord i.date := by
  unfold recent_candidates at hi
  cases hs : sortItemsDesc items with
  | nil =>
    rw [hs] at hi
    exact absurd hi (List.not_mem_nil i)
  | cons top rest =>
    rw [hs] at hi
    have hcond := List.mem_filter.mp hi
    have hwin := of_decide_eq_true hcond.2
    have hmax := sortItemsDesc_head_max items top rest hs j hj
    unfold window_start at hwin
    omega

theorem eligible_set_within_window_witness :
    c4w_b ∈ recent_candidates [c4w_a, c4w_b] ∧ c4w_a ∈ [c4w_a, c4w_b] ∧
    pord c4w_a.date - 10 ≤ pord c4w_b.date :=
  ⟨by decide, by decide,
   eligible_set_within_window [c4w_a, c4w_b] c4w_b (by decide) c4w_a (by decide)⟩

/-! ### Claim C5 — selection never empty, at most two documents -/

/-- Claim C5: whenever at least one dated, classified candidate exists,
selection succeeds (the indexing of the eligible set never hits an empty
list) and fetches at least one and at most two documents. -/
theorem selection_nonempty_at_most_two (items : List Item) (h : items ≠ []) :
    ∃ p, select_docs items = some p ∧
      1 ≤ (docs_to_fetch p).length ∧ (docs_to_fetch p).length ≤ 2 := by
  have hne := recent_sorted_ne_nil items h
  cases hr : recent_sorted items with
  | nil => exact absurd hr hne
  | cons w rest =>
    refine ⟨(w, select_secondary items w), ?_, ?_, ?_⟩
    · unfold select_docs
      rw [hr]
    · simp [docs_to_fetch]
    · cases hsec : select_secondary items w <;> simp [docs_to_fetch, hsec]

theorem selection_nonempty_at_most_two_witness :
    ([c5w] ≠ ([] : List Item)) ∧
    ∃ p, select_docs [c5w] = some p ∧
      1 ≤ (docs_to_fetch p).length ∧ (docs_to_fetch p).length ≤ 2 :=
  ⟨by decide, selection_nonempty_at_most_two [c5w] (by decide)⟩

/-! ### Claim C2 — the concrete selection scenario -/

/-- Claim C2: on candidates `[PdfTanshin@2025-11-10, HtmlTranscript@2025-11-08,
PdfTranscript@2025-08-01]` with the 10-day window, the Selection Engine picks
the HTML transcript of 2025-11-08 as primary and the PDF transcript of
2025-08-01 as secondary. -/
theorem scenario_c2_selection :
    select_docs [c2_tanshin, c2_html, c2_pdft] = some (c2_html, some c2_pdft) ∧
    c2_html.itype = DocType.html_transcript ∧ c2_html.date = ⟨2025, 11, 8⟩ ∧
    c2_pdft.itype = DocType.pdf_transcript ∧ c2_pdft.date = ⟨2025, 8, 1⟩ := by
  decide

/-! ### Claim C1 — when a secondary/context document is returned -/

/-- Counterexample to claim C1: on `[HtmlTranscript@2025-11-10,
PdfTranscript@2025-08-01]` the code returns the 101-day-old PDF transcript as
secondary even though the most recent transcript (the primary itself, 0 days
old) is not strictly between 60 and 250 days older than the primary: the
secondary loop skips over out-of-window transcripts instead of inspecting
only the most recent one. -/
theorem c1_counterexample : ¬ c1_claim := fun h => by
  rcases h [cxA, cxB] cxA cxB (by decide) with ⟨t0, ht0, h60, _⟩
  have hhead : (transcripts_sorted [cxA, cxB]).head? = some cxA := by decide
  rw [hhead] at ht0
  have he : t0 = cxA := (Option.some_inj.mp ht0).symm
  rw [he] at h60
  revert h60
  decide

/-- Amended claim C1: a secondary document is returned precisely when some
transcript-type candidate is strictly between 60 and 250 days older than the
primary; the returned secondary is such a candidate of maximal date (the
most recent qualifying transcript), and when no transcript qualifies no
secondary is returned. -/
theorem secondary_selection_characterization (items : List Item) (w : Item)
    (sec : Option Item) (hsel : select_docs items = some (w, sec)) :
    (∀ s, sec = some s →
       transcript_types s = true ∧ s ∈ items ∧
       60 < pord w.date - pord s.date ∧ pord w.date - pord s.date < 250 ∧
       ∀ t ∈ items, transcript_types t = true →
         60 < pord w.date - pord t.date → pord w.date - pord t.date < 250 →
           pord t.date ≤ pord s.date) ∧
    (sec = none → ∀ t ∈ items, transcript_types t = true →
       ¬ (60 < pord w.date - pord t.date ∧ pord w.date - pord t.date < 250)) := by
  have hsec : sec = select_secondary items w := by
    unfold select_docs at hsel
    cases hr : recent_sorted items with
    | nil => rw [hr] at hsel; cases hsel
    | cons w' rest =>
      rw [hr] at hsel
      injection hsel with h
      injection h with h1 h2
      rw [← h2, h1]
  constructor
  · intro s hs
    rw [hs] at hsec
    have hfind : (transcripts_sorted items).find?
        (fun tx => decide (60 < pord w.date - pord tx.date ∧
          pord w.date - pord tx.date < 250)) = some s := hsec.symm
    have hps := List.find?_some hfind
    have hcond := of_decide_eq_true hps
    have hmem := List.mem_of_find?_eq_some hfind
    have hitems := (mem_transcripts_sorted items s).mp hmem
    refine ⟨hitems.2, hitems.1, hcond.1, hcond.2, ?_⟩
    intro t ht htt h60 h250
    have hpw : (transcripts_sorted items).Pairwise
        (descByKey (fun i : Item => (pord i.date, 0))) :=
      List.sorted_insertionSort (descByKey (fun i : Item => (pord i.date, 0))) _
    refine find_max_date _ (transcripts_sorted items) hpw s hfind t
      ((mem_transcripts_sorted items t).mpr ⟨ht, htt⟩) ?_
    exact decide_eq_true ⟨h60, h250⟩
  · intro hnone t ht htt
    rw [hnone] at hsec
    have hfind : (transcripts_sorted items).find?
        (fun tx => decide (60 < pord w.date - pord tx.date ∧
          pord w.date - pord tx.date < 250)) = none := hsec.symm
    have hall := List.find?_eq_none.mp hfind t
      ((mem_transcripts_sorted items t).mpr ⟨ht, htt⟩)
    intro hcontra
    exact hall (decide_eq_true hcontra)

theorem secondary_selection_characterization_witness :
    transcript_types cxB = true ∧ cxB ∈ [cxA, cxB] ∧
    60 < pord cxA.date - pord cxB.date ∧ pord cxA.date - pord cxB.date < 250 :=
  have h := (secondary_selection_characterization [cxA, cxB] cxA (some cxB)
    (by decide)).1 cxB rfl
  ⟨h.1, h.2.1, h.2.2.1, h.2.2.2.1⟩

/-! ### Candidate Ranker lemmas -/

/-- The ranked list is sorted for the full reverse `(score, prio)` key. -/
theorem rank_candidates_pairwise (cands : List (String × String)) :
    (rank_candidates cands).Pairwise (descByKey rankKey) := by
  have h := List.sorted_insertionSort (descByKey rankKey)
    (cands.map (fun ls => (linkScore ls.1, ls.1, ls.2)))
  unfold List.Sorted at h
  unfold rank_candidates
  exact h

/-! ### Claim C7 — ranker output is non-increasing in recency score -/

/-- Claim C7: the Candidate Ranker outputs candidates in non-increasing
order of recency score (ties broken by the fixed source-trust priority,
higher trust first), and the slug `q3-2025-earnings-call-transcript` scores
20253 and ranks ahead of `q2-2024-earnings-call-transcript` at 20242. -/
theorem ranker_nonincreasing_and_scenario :
    (∀ cands : List (String × String),
      (rank_candidates cands).Pairwise (fun a b =>
        b.1 < a.1 ∨ (b.1 = a.1 ∧ sourcePrio b.2.2 ≤ sourcePrio a.2.2))) ∧
    linkScore "https://x/q3-2025-earnings-call-transcript" = 20253 ∧
    linkScore "https://x/q2-2024-earnings-call-transcript" = 20242 ∧
    rank_candidates [("https://x/q2-2024-earnings-call-transcript", "Motley Fool"),
                     ("https://x/q3-2025-earnings-call-transcript", "Motley Fool")] =
      [(20253, "https://x/q3-2025-earnings-call-transcript", "Motley Fool"),
       (20242, "https://x/q2-2024-earnings-call-transcript", "Motley Fool")] := by
  refine ⟨?_, by decide, by decide, by decide⟩
  intro cands
  refine List.Pairwise.imp ?_ (rank_candidates_pairwise cands)
  intro a b hab
  simp only [descByKey, lexLeI, rankKey] at hab
  omega

theorem ranker_nonincreasing_witness :
    (rank_candidates [("https://a/q3-2025-t", "Seeking Alpha"),
                      ("https://b/q3-2025-t", "Investing.com")]).Pairwise (fun a b =>
      b.1 < a.1 ∨ (b.1 = a.1 ∧ sourcePrio b.2.2 ≤ sourcePrio a.2.2)) :=
  ranker_nonincreasing_and_scenario.1
    [("https://a/q3-2025-t", "Seeking Alpha"), ("https://b/q3-2025-t", "Investing.com")]

/-! ### Claim C3 — candidates without an extractable year -/

/-- Counterexample to claim C3: the slug text `earnings call transcript` has
no extractable year, and the score the ranker assigns to it is exactly 0 —
not a nonzero configured baseline ("rather than zero" fails on the code,
which returns the tuple `(0, 0)`). -/
theorem c3_counterexample : ¬ c3_claim := fun h =>
  h "earnings call transcript" (by decide) (by decide)

/-- Amended claim C3: a candidate string from which no year can be extracted
is assigned the tuple `(0, 0)` and hence recency score zero; such candidates
sort last in the ranking (the output is non-increasing in score and scores
are nonnegative) but are not removed from the candidate list (the ranker's
output has exactly the input's length). -/
theorem unscored_zero_sort_last_not_removed :
    (∀ s : String, extractYearUpper (s.toList.map Char.toUpper) = none →
       parse_quarter_from_string s = (0, 0) ∧
       scoreOfPair (parse_quarter_from_string s) = 0) ∧
    (∀ cands : List (String × String),
       (rank_candidates cands).length = cands.length ∧
       (rank_candidates cands).Pairwise (fun a b => b.1 ≤ a.1)) := by
  constructor
  · intro s hy
    have h1 : parse_quarter_from_string s = (0, 0) := by
      unfold parse_quarter_from_string
      by_cases hs : s = ""
      · rw [if_pos hs]
      · rw [if_neg hs]
        simp only [hy]
    exact ⟨h1, by rw [h1]; rfl⟩
  · intro cands
    constructor
    · unfold rank_candidates
      rw [List.length_insertionSort, List.length_map]
    · refine List.Pairwise.imp ?_ (rank_candidates_pairwise cands)
      intro a b hab
      simp only [descByKey, lexLeI, rankKey] at hab
      omega

theorem unscored_zero_witness :
    extractYearUpper ("zzz".toList.map Char.toUpper) = none ∧
    parse_quarter_from_string "zzz" = (0, 0) ∧
    scoreOfPair (parse_quarter_from_string "zzz") = 0 :=
  ⟨by decide, (unscored_zero_sort_last_not_removed.1 "zzz" (by decide)).1,
   (unscored_zero_sort_last_not_removed.1 "zzz" (by decide)).2⟩

/-! ### Claim C6 — the Pagination Stitcher terminates within 15 iterations -/

/-- One loop iteration executes at most one more iteration than its
continuation. -/
theorem stitchIter_iters_le (res : Option StitchPage) (errLog : String)
    (next : Unit → StitchOut) :
    (stitchIter res errLog next).iters ≤ (next ()).iters + 1 ∧
    1 ≤ (next ()).iters + 1 := by
  refine ⟨?_, by omega⟩
  cases res with
  | none => exact Nat.le_add_left 1 _
  | some pg =>
    cases hm : pg.mainElems with
    | none =>
      show (match pg.mainElems with
        | none => (⟨[], [], 1⟩ : StitchOut)
        | some els =>
          let chunk := String.intercalate "\n\n" (dedupAdj (stitch_valid els))
          if chunk = "" then ⟨[], [], 1⟩
          else if pg.hasNext then
            let rest := next ()
            ⟨chunk :: rest.chunks, rest.logs, rest.iters + 1⟩
          else ⟨[chunk], [], 1⟩).iters ≤ (next ()).iters + 1
      rw [hm]
      exact Nat.le_add_left 1 _
    | some els =>
      show (match pg.mainElems with
        | none => (⟨[], [], 1⟩ : StitchOut)
        | some els =>
          let chunk := String.intercalate "\n\n" (dedupAdj (stitch_valid els))
          if chunk = "" then ⟨[], [], 1⟩
          else if pg.hasNext then
            let rest := next ()
            ⟨chunk :: rest.chunks, rest.logs, rest.iters + 1⟩
          else ⟨[chunk], [], 1⟩).iters ≤ (next ()).iters + 1
      rw [hm]
      by_cases hc : String.intercalate "\n\n" (dedupAdj (stitch_valid els)) = ""
      · show (if String.intercalate "\n\n" (dedupAdj (stitch_valid els)) = ""
            then (⟨[], [], 1⟩ : StitchOut)
            else if pg.hasNext then
              ⟨String.intercalate "\n\n" (dedupAdj (stitch_valid els)) :: (next ()).chunks,
               (next ()).logs, (next ()).iters + 1⟩
            else ⟨[String.intercalate "\n\n" (dedupAdj (stitch_valid els))], [], 1⟩).iters ≤
          (next ()).iters + 1
        rw [if_pos hc]
        exact Nat.le_add_left 1 _
      · show (if String.intercalate "\n\n" (dedupAdj (stitch_valid els)) = ""
            then (⟨[], [], 1⟩ : StitchOut)
            else if pg.hasNext then
              ⟨String.intercalate "\n\n" (dedupAdj (stitch_valid els)) :: (next ()).chunks,
               (next ()).logs, (next ()).iters + 1⟩
            else ⟨[String.intercalate "\n\n" (dedupAdj (stitch_valid els))], [], 1⟩).iters ≤
          (next ()).iters + 1
        rw [if_neg hc]
        by_cases hn : pg.hasNext = true
        · rw [if_pos hn]
        · rw [if_neg hn]
          exact Nat.le_add_left 1 _

/-- The loop starting at `page` runs at most `15 - page` iterations, for
every fetch behaviour. -/
theorem stitchGo_iters_le (fetch : String → Option StitchPage) (url : String) :
    ∀ (n page : Nat), 15 - page ≤ n → (stitchGo fetch url page).iters ≤ 15 - page := by
  intro n
  induction n with
  | zero =>
    intro page hp
    have hnot : ¬ page < 15 := by omega
    rw [stitchGo, dif_neg hnot]
    exact Nat.zero_le _
  | succ n ih =>
    intro page hp
    rw [stitchGo]
    by_cases h : page < 15
    · rw [dif_pos h]
      have h1 := (stitchIter_iters_le (fetch (stitchTarget url page))
        (" [!] Error fetching " ++ stitchTarget url page)
        (fun _ => stitchGo fetch url (page + 1))).1
      have h2 := ih (page + 1) (by omega)
      simp only at h1 h2 ⊢
      omega
    · rw [dif_neg h]
      exact Nat.zero_le _

/-- Claim C6: the Pagination Stitcher terminates within 15 page iterations
for every input, including when every fetched page yields content and a
"next page" affordance (`fetch` is universally quantified, so that case is
covered; the loop in fact runs at most 14 iterations, pages 1 through 14).
-/
theorem stitcher_terminates_within_15 (fetch : String → Option StitchPage)
    (url : String) : (stitch_html_transcript fetch url).2.2 ≤ 15 := by
  have h := stitchGo_iters_le fetch url 14 1 (by omega)
  have he : (stitch_html_transcript fetch url).2.2 = (stitchGo fetch url 1).iters := rfl
  omega

theorem stitcher_terminates_witness :
    (stitch_html_transcript c6_fetch "https://example.jp/a").2.2 ≤ 15 :=
  stitcher_terminates_within_15 c6_fetch "https://example.jp/a"

/-! ### Cascading Fetcher lemmas -/

/-- The attempted candidates are exactly the failing prefix of the list
followed by the first validated candidate when one exists. -/
theorem attempted_candidates_eq (fp : String → String → Option (String × SuccessMeta)) :
    ∀ l : List ((Nat × Nat) × String × String),
      attempted_candidates fp l =
        l.takeWhile (fun c => (validated_of fp c).isNone) ++
          (l.dropWhile (fun c => (validated_of fp c).isNone)).take 1 := by
  intro l
  induction l with
  | nil => rfl
  | cons c rest ih =>
    cases hf : fp c.2.1 c.2.2 with
    | none =>
      have hv : validated_of fp c = none := by simp [validated_of, hf]
      simp [attempted_candidates, hf, List.takeWhile_cons, List.dropWhile_cons, hv, ih]
    | some tm =>
      by_cases he : tm.1 = ""
      · have hv : validated_of fp c = none := by simp [validated_of, hf, he]
        simp [attempted_candidates, hf, he, List.takeWhile_cons, List.dropWhile_cons, hv, ih]
      · have hv : validated_of fp c = some tm := by simp [validated_of, hf, he]
        simp [attempted_candidates, hf, he, List.takeWhile_cons, List.dropWhile_cons, hv]

/-- The loop's result is determined by the first validated candidate. -/
theorem try_candidates_eq_first (fp : String → String → Option (String × SuccessMeta)) :
    ∀ l : List ((Nat × Nat) × String × String),
      try_candidates fp l =
        (match first_validated fp l with
         | some tm => (some tm.1, SMeta.ok tm.2)
         | none => (none, SMeta.err "Candidates found but failed to parse")) := by
  intro l
  induction l with
  | nil => rfl
  | cons c rest ih =>
    cases hf : fp c.2.1 c.2.2 with
    | none =>
      have hv : validated_of fp c = none := by simp [validated_of, hf]
      simp [try_candidates, first_validated, List.findSome?_cons, hf, hv]
      simp [first_validated] at ih
      exact ih
    | some tm =>
      by_cases he : tm.1 = ""
      · have hv : validated_of fp c = none := by simp [validated_of, hf, he]
        simp [try_candidates, first_validated, List.findSome?_cons, hf, he, hv]
        simp [first_validated] at ih
        exact ih
      · have hv : validated_of fp c = some tm := by simp [validated_of, hf, he]
        simp [try_candidates, first_validated, List.findSome?_cons, hf, he, hv]

/-! ### Claim C8 — at most the top three candidates, in order, first
validated success wins -/

/-- Claim C8: the loop attempts at most the first three ranked candidates
(its attempt list is a prefix of `candidates[:3]`, hence in ranked order and
of length at most 3), every attempt before the last one failed validation,
and the returned value is the first candidate whose fetch yields validated
text — after which nothing further is fetched (the attempt list stops at
that candidate). -/
theorem cascading_fetcher_top3 (fp : String → String → Option (String × SuccessMeta))
    (cands : List ((Nat × Nat) × String × String)) :
    (∃ t, attempted_candidates fp (cands.take 3) ++ t = cands.take 3) ∧
    (attempted_candidates fp (cands.take 3)).length ≤ 3 ∧
    (attempted_candidates fp (cands.take 3) =
      (cands.take 3).takeWhile (fun c => (validated_of fp c).isNone) ++
        ((cands.take 3).dropWhile (fun c => (validated_of fp c).isNone)).take 1) ∧
    try_candidates fp (cands.take 3) =
      (match first_validated fp (cands.take 3) with
       | some tm => (some tm.1, SMeta.ok tm.2)
       | none => (none, SMeta.err "Candidates found but failed to parse")) := by
  have heq := attempted_candidates_eq fp (cands.take 3)
  have hpre : ∃ t, attempted_candidates fp (cands.take 3) ++ t = cands.take 3 := by
    refine ⟨((cands.take 3).dropWhile (fun c => (validated_of fp c).isNone)).drop 1, ?_⟩
    rw [heq, List.append_assoc, List.take_append_drop,
      List.takeWhile_append_dropWhile]
  refine ⟨hpre, ?_, heq, try_candidates_eq_first fp (cands.take 3)⟩
  rcases hpre with ⟨t, ht⟩
  have hlen : (attempted_candidates fp (cands.take 3)).length + t.length =
      (cands.take 3).length := by
    rw [← List.length_append, ht]
  have h3 : (cands.take 3).length ≤ 3 := by
    rw [List.length_take]
    omega
  omega

theorem cascading_fetcher_top3_witness :
    try_candidates c8_fp ([c8_cand1, c8_cand2, c8_cand3, c8_cand4].take 3) =
      (some "validated text", SMeta.ok c8_meta) ∧
    attempted_candidates c8_fp ([c8_cand1, c8_cand2, c8_cand3, c8_cand4].take 3) =
      [c8_cand1, c8_cand2] ∧
    (∃ t, attempted_candidates c8_fp ([c8_cand1, c8_cand2, c8_cand3, c8_cand4].take 3) ++ t =
      [c8_cand1, c8_cand2, c8_cand3, c8_cand4].take 3) :=
  ⟨by decide, by decide,
   (cascading_fetcher_top3 c8_fp [c8_cand1, c8_cand2, c8_cand3, c8_cand4]).1⟩

/-! ### Claim C9 — entry-point totality and result shapes -/

/-- The loop's result is always either a null text with an error dictionary
or a non-null text with success provenance. -/
theorem try_candidates_shape (fp : String → String → Option (String × SuccessMeta)) :
    ∀ l : List ((Nat × Nat) × String × String),
      ((try_candidates fp l).1 = none ∧ ∃ e, (try_candidates fp l).2 = SMeta.err e) ∨
      (∃ t m, try_candidates fp l = (some t, SMeta.ok m)) := by
  intro l
  induction l with
  | nil => exact Or.inl ⟨rfl, "Candidates found but failed to parse", rfl⟩
  | cons c rest ih =>
    cases hf : fp c.2.1 c.2.2 with
    | none =>
      have h : try_candidates fp (c :: rest) = try_candidates fp rest := by
        simp [try_candidates, hf]
      rw [h]
      exact ih
    | some tm =>
      by_cases he : tm.1 = ""
      · have h : try_candidates fp (c :: rest) = try_candidates fp rest := by
          simp [try_candidates, hf, he]
        rw [h]
        exact ih
      · have h : try_candidates fp (c :: rest) = (some tm.1, SMeta.ok tm.2) := by
          simp [try_candidates, hf, he]
        rw [h]
        exact Or.inr ⟨tm.1, tm.2, rfl⟩

/-- Amended claim C9: for every network behaviour and every ticker string,
both entry points return normally (their embeddings are total because every
fallible step in the source catches its own exceptions).
`get_transcript_data` returns either a null text with a structured error
value or a non-null text with provenance metadata — but not the log trail,
which goes to the logger side channel.  `scrape_japanese_transcript` always
returns the accumulated log trail, starting with its opening log line — but
its failure indication is carried in the log lines, not in a structured
error value. -/
theorem entry_points_never_raise_and_shape :
    (∀ (o : SearchOracles) (ticker : String),
       ((get_transcript_data o ticker).1 = none ∧
          ∃ e, (get_transcript_data o ticker).2 = SMeta.err e) ∨
       (∃ t m, get_transcript_data o ticker = (some t, SMeta.ok m))) ∧
    (∀ (o : JpOracles) (ticker : String),
       ∃ rest, (scrape_japanese_transcript o ticker).2 =
         ("Starting scrape for " ++ ticker) :: rest) := by
  constructor
  · intro o ticker
    by_cases hc : (find_transcript_candidates o ticker).1.isEmpty
    · have h : get_transcript_data o ticker = (none, SMeta.err "No candidates found") := by
        unfold get_transcript_data get_transcript_data_run
        simp [hc]
      rw [h]
      exact Or.inl ⟨rfl, "No candidates found", rfl⟩
    · have h : get_transcript_data o ticker =
          try_candidates (fun u s => o.fetchPage u s ticker)
            ((find_transcript_candidates o ticker).1.take 3) := by
        unfold get_transcript_data get_transcript_data_run
        simp [hc]
      rw [h]
      exact try_candidates_shape _ _
  · intro o ticker
    exact ⟨_, rfl⟩

/-- Counterexample to claim C9's log-trail clause: two network behaviours on
which `get_transcript_data` returns the identical value while the runs
accumulate different log trails (Yahoo answering junk versus Yahoo
answering nothing and the Ask.com backup being logged), so no function of
the returned value can recover the trail — the caller does not receive it.
-/
theorem c9_counterexample : ¬ c9_claim_scraper_logs_in_return := by
  rintro ⟨f, hf⟩
  have h1 := hf c9_oracle1 "ABC"
  have h2 := hf c9_oracle2 "ABC"
  have heq : get_transcript_data c9_oracle1 "ABC" = get_transcript_data c9_oracle2 "ABC" := by
    decide
  rw [heq] at h1
  have hlogs : (get_transcript_data_run c9_oracle1 "ABC").2 =
      (get_transcript_data_run c9_oracle2 "ABC").2 := by
    rw [← h1, h2]
  revert hlogs
  decide

theorem entry_points_shape_witness :
    ((get_transcript_data c9_oracle1 "ABC").1 = none ∧
       ∃ e, (get_transcript_data c9_oracle1 "ABC").2 = SMeta.err e) ∨
    (∃ t m, get_transcript_data c9_oracle1 "ABC" = (some t, SMeta.ok m)) :=
  entry_points_never_raise_and_shape.1 c9_oracle1 "ABC"

/-! ### Claim C10 — invariants of the structured-site classifier -/

/-- What a successful classification implies: the priority is the fixed
table entry for the type, and the type is one of the four public ones —
never `OTHER`. -/
theorem classify_jp_link_spec (l : ALink) (t : DocType) (p : Int)
    (h : classify_jp_link l = some (t, p)) :
    p = TYPE_PRIORITY t ∧ t ≠ DocType.other ∧
      (t = DocType.html_transcript ∨ t = DocType.pdf_transcript ∨
       t = DocType.pdf_presentation ∨ t = DocType.pdf_tanshin) := by
  unfold classify_jp_link at h
  split_ifs at h <;>
    first
      | exact Option.noConfusion h
      | · injection h with h3
          injection h3 with h4 h5
          subst h4
          subst h5
          decide

/-- The classification loop's full invariant, with the `seen_urls`
accumulator generalized. -/
theorem analyze_go_spec (join : String → String) :
    ∀ (ls : List ALink) (seen : List String),
      (∀ i ∈ analyze_go join seen ls, i.url ∉ seen ∧
         ∃ l ∈ ls, classify_jp_link l = some (i.itype, i.priority) ∧
           date_cascade l = some i.date ∧ i.url = join l.href) ∧
      (analyze_go join seen ls).Pairwise (fun a b => a.url ≠ b.url) := by
  intro ls
  induction ls with
  | nil =>
    intro seen
    exact ⟨fun i hi => absurd hi (List.not_mem_nil i), List.Pairwise.nil⟩
  | cons l rest ih =>
    intro seen
    by_cases hseen : join l.href ∈ seen
    · have hg : analyze_go join seen (l :: rest) = analyze_go join seen rest := by
        simp [analyze_go, hseen]
      rw [hg]
      refine ⟨fun i hi => ?_, (ih seen).2⟩
      obtain ⟨hc, l2, hl2, hrest⟩ := (ih seen).1 i hi
      exact ⟨hc, l2, List.mem_cons_of_mem l hl2, hrest⟩
    · cases hcls : classify_jp_link l with
      | none =>
        have hg : analyze_go join seen (l :: rest) = analyze_go join seen rest := by
          simp [analyze_go, hseen, hcls]
        rw [hg]
        refine ⟨fun i hi => ?_, (ih seen).2⟩
        obtain ⟨hc, l2, hl2, hrest⟩ := (ih seen).1 i hi
        exact ⟨hc, l2, List.mem_cons_of_mem l hl2, hrest⟩
      | some tp =>
        cases hdt : date_cascade l with
        | none =>
          have hg : analyze_go join seen (l :: rest) = analyze_go join seen rest := by
            simp [analyze_go, hseen, hcls, hdt]
          rw [hg]
          refine ⟨fun i hi => ?_, (ih seen).2⟩
          obtain ⟨hc, l2, hl2, hrest⟩ := (ih seen).1 i hi
          exact ⟨hc, l2, List.mem_cons_of_mem l hl2, hrest⟩
        | some dt =>
          have hg : analyze_go join seen (l :: rest) =
              ⟨tp.1, dt, join l.href, tp.2, String.mk (l.text.toList.take 50)⟩ ::
                analyze_go join (join l.href :: seen) rest := by
            simp [analyze_go, hseen, hcls, hdt]
          rw [hg]
          have htail := ih (join l.href :: seen)
          constructor
          · intro i hi
            rcases List.mem_cons.mp hi with hhead | htl
            · subst hhead
              refine ⟨hseen, l, List.mem_cons_self l rest, ?_, hdt, rfl⟩
              rw [hcls]
            · obtain ⟨hc, l2, hl2, hrest⟩ := htail.1 i htl
              rw [List.mem_cons] at hc
              push_neg at hc
              exact ⟨hc.2, l2, List.mem_cons_of_mem l hl2, hrest⟩
          · refine List.Pairwise.cons ?_ htail.2
            intro b hb
            obtain ⟨hc, -⟩ := htail.1 b hb
            rw [List.mem_cons] at hc
            push_neg at hc
            exact fun hcontra => hc.1 (hcontra ▸ rfl)

/-- Claim C10: every item returned by `analyze_company_page` has a resolved
publication date (produced by the date cascade of the link it came from), a
type among the four public document types (never `OTHER`), a priority equal
to the fixed `TYPE_PRIORITY` table entry for its type, and a URL distinct
from every other returned item's URL. -/
theorem analyze_company_page_invariants (join : String → String) (links : List ALink) :
    (analyze_company_page join links).Pairwise (fun a b => a.url ≠ b.url) ∧
    ∀ i ∈ analyze_company_page join links,
      i.priority = TYPE_PRIORITY i.itype ∧ i.itype ≠ DocType.other ∧
      (i.itype = DocType.html_transcript ∨ i.itype = DocType.pdf_transcript ∨
        i.itype = DocType.pdf_presentation ∨ i.itype = DocType.pdf_tanshin) ∧
      ∃ l ∈ links, classify_jp_link l = some (i.itype, i.priority) ∧
        date_cascade l = some i.date ∧ i.url = join l.href := by
  have h := analyze_go_spec join links []
  refine ⟨h.2, ?_⟩
  intro i hi
  obtain ⟨-, l, hl, hcls, hdt, hurl⟩ := h.1 i hi
  have hsp := classify_jp_link_spec l i.itype i.priority hcls
  exact ⟨hsp.1, hsp.2.1, hsp.2.2, l, hl, hcls, hdt, hurl⟩

theorem analyze_company_page_invariants_witness :
    (analyze_company_page demoJoin demoLinks).Pairwise (fun a b => a.url ≠ b.url) ∧
    (analyze_company_page demoJoin demoLinks).length = 2 :=
  ⟨(analyze_company_page_invariants demoJoin demoLinks).1, by decide⟩

end VIB
